import Mathlib

/-!
Formal model of the websocket save-file handlers of palworld-save-pal
(`palworld_save_pal/ws/handlers/save_file_handler.py`).

Each handler is embedded as a pure function from the session state, an
abstract Save Engine and the inbound payload to a `HandlerResult`: the final
session state, the ordered list of envelopes sent on the connection, and the
trace of Save Engine operations invoked.  The Save Engine, the session state
container and `build_response` live outside the given handler source and are
modelled from the specification; the zip/uuid/base64 behaviour of the Python
standard library is modelled directly after CPython's documented semantics.
-/

/-- Entities (players or pals) are opaque to this layer; a stable key
suffices to model the listings the handlers forward verbatim. -/
abbrev Player := Nat

/-- Patches are opaque payloads forwarded to the Save Engine. -/
abbrev Patch := Nat

/-- Modelled from the spec: the parsed save handle held by the session
(`SaveFile` in `palworld_save_pal/save_file.py`, which is not among the given
sources): a display name, a size, and an opaque parsed representation. -/
structure SaveFile where
  name : String
  size : Nat
  gvas : List Nat
deriving DecidableEq

/-- Modelled from the spec: the Session State (`AppState` in
`palworld_save_pal/state.py`, which is not among the given sources): the
current save handle, if any, and the last materialized entity listing. -/
structure AppState where
  save_file : Option SaveFile
  players : List Player
deriving DecidableEq

/-- Message-type tags of the envelopes (`ws/messages.py`). -/
inductive MessageType where
  | PROGRESS_MESSAGE
  | LOAD_SAVE_FILE
  | LOAD_ZIP_FILE
  | UPDATE_SAVE_FILE
  | DOWNLOAD_SAVE_FILE
  | GET_PLAYERS
  | ERROR
deriving DecidableEq

/-- Payloads of outgoing envelopes: plain text, the `name`/`size` summary
dictionary, an entity listing (`jsonable_encoder` is the identity on our
opaque listings), or the `name`/`content` download dictionary. -/
inductive Payload where
  | text : String → Payload
  | nameSize : String → Nat → Payload
  | playerList : List Player → Payload
  | download : String → String → Payload
deriving DecidableEq

/-- Modelled from the spec: the Response Envelope built by `build_response`
(`ws/utils.py`, not among the given sources): a type tag plus a payload. -/
structure Envelope where
  type : MessageType
  data : Payload
deriving DecidableEq

def build_response (t : MessageType) (d : Payload) : Envelope := ⟨t, d⟩

/-- One `ws_callback` invocation: a single PROGRESS_MESSAGE envelope. -/
def progressEnvelope (s : String) : Envelope :=
  build_response MessageType.PROGRESS_MESSAGE (Payload.text s)

/-- The envelopes produced by a sequence of progress-callback invocations. -/
def progressEnvelopes (l : List String) : List Envelope := l.map progressEnvelope

def errorEnvelope (s : String) : Envelope :=
  build_response MessageType.ERROR (Payload.text s)

/-- Tags recording which Save Engine operation a handler invoked. -/
inductive EngineCall where
  | processSaveFile
  | processSaveFiles
  | updatePals
  | updatePlayers
  | getPlayers
  | sav
deriving DecidableEq

/-- Modelled from the spec: the Save Engine, the external collaborator the
handlers consume (`app_state.process_save_file`, `app_state.process_save_files`,
`save_file.update_pals`, `save_file.update_players`, `save_file.get_players`,
`save_file.sav`; all outside the given sources).  Each operation returns the
progress strings it reported through the callback together with its outcome.
Per spec section 4.4, `process_save_file` and `process_save_files` are atomic:
on success they yield the replacement session contents (new handle plus
recomputed entity listing), on failure the session is untouched.  The update
operations mutate the handle in place, so they return the (possibly mutated)
handle even on failure. -/
structure Engine where
  process_save_file : List Nat → List String × Except String (SaveFile × List Player)
  process_save_files : String → List Nat → List (Nat × List Nat) →
    List String × Except String (SaveFile × List Player)
  update_pals : SaveFile → List Patch → List String × SaveFile × Except String Unit
  update_players : SaveFile → List Patch → List String × SaveFile × Except String Unit
  get_players : SaveFile → Except String (List Player)
  sav : SaveFile → List String × Except String (List Nat)

/-- The observable outcome of one handler invocation: final session state,
the envelopes sent on the websocket in order, and the Save Engine calls. -/
structure HandlerResult where
  state : AppState
  sent : List Envelope
  calls : List EngineCall
deriving DecidableEq

/-! ## Base64 (Python `base64.b64encode` / its inverse)

`b64encode` follows RFC 4648 exactly as `base64.b64encode(...).decode("utf-8")`
does in the handler; `b64decode` is the decoder a client applies to the
`content` field. -/

/-- The RFC 4648 alphabet character for a sextet. -/
def b64Char (n : Nat) : Char :=
  if n < 26 then Char.ofNat (65 + n)
  else if n < 52 then Char.ofNat (97 + (n - 26))
  else if n < 62 then Char.ofNat (48 + (n - 52))
  else if n = 62 then '+'
  else '/'

/-- Encode a byte list, three bytes to four characters, padding with `=`. -/
def b64encodeChars : List Nat → List Char
  | a :: b :: c :: rest =>
      b64Char (a / 4) :: b64Char ((a % 4) * 16 + b / 16) ::
        b64Char ((b % 16) * 4 + c / 64) :: b64Char (c % 64) :: b64encodeChars rest
  | [a, b] => [b64Char (a / 4), b64Char ((a % 4) * 16 + b / 16), b64Char ((b % 16) * 4), '=']
  | [a] => [b64Char (a / 4), b64Char ((a % 4) * 16), '=', '=']
  | [] => []

def b64encode (l : List Nat) : String := ⟨b64encodeChars l⟩

/-- The sextet value of an alphabet character. -/
def b64Val (c : Char) : Option Nat :=
  if 'A' ≤ c ∧ c ≤ 'Z' then some (c.toNat - 65)
  else if 'a' ≤ c ∧ c ≤ 'z' then some (c.toNat - 97 + 26)
  else if '0' ≤ c ∧ c ≤ '9' then some (c.toNat - 48 + 52)
  else if c = '+' then some 62
  else if c = '/' then some 63
  else none

/-- Map every character to its sextet value, failing on foreign characters. -/
def b64Vals : List Char → Option (List Nat)
  | [] => some []
  | c :: cs =>
    match b64Val c, b64Vals cs with
    | some v, some vs => some (v :: vs)
    | _, _ => none

/-- Reassemble bytes from sextet values, four sextets to three bytes, with
the two- and three-sextet tails of padded input producing one or two bytes. -/
def b64decodeVals : List Nat → List Nat
  | v0 :: v1 :: v2 :: v3 :: rest =>
      (v0 * 4 + v1 / 16) :: ((v1 % 16) * 16 + v2 / 4) ::
        ((v2 % 4) * 64 + v3) :: b64decodeVals rest
  | [v0, v1, v2] => [v0 * 4 + v1 / 16, (v1 % 16) * 16 + v2 / 4]
  | [v0, v1] => [v0 * 4 + v1 / 16]
  | _ => []

def b64decode (s : String) : Option (List Nat) :=
  (b64Vals (s.data.filter (fun c => c != '='))).map b64decodeVals

/-! ## The single-save, update and download handlers -/

/-- `load_save_file_handler` (save_file_handler.py lines 23-52).  The engine
ingestion is the only fallible step of the `try` body; its failure is caught
by the `except` clause, which sends exactly one ERROR envelope. -/
def load_save_file_handler (eng : Engine) (st : AppState) (data : List Nat) :
    HandlerResult :=
  match eng.process_save_file data with
  | (prog, Except.error e) =>
      ⟨st, progressEnvelopes prog ++ [errorEnvelope ("Error processing file: " ++ e)],
        [EngineCall.processSaveFile]⟩
  | (prog, Except.ok (sf, ps)) =>
      ⟨⟨some sf, ps⟩,
        progressEnvelopes prog ++
          [progressEnvelope "File uploaded and processed successfully, results coming right up!",
            build_response MessageType.LOAD_SAVE_FILE (Payload.nameSize sf.name sf.size),
            build_response MessageType.GET_PLAYERS (Payload.playerList ps)],
        [EngineCall.processSaveFile]⟩

/-- Payload of an UPDATE_SAVE_FILE message (`ws/messages.py`): the two patch
collections; Python truthiness treats an empty collection like an absent
one (`message.data.modified_pals if message.data.modified_pals else None`). -/
structure UpdateData where
  modified_pals : List Patch
  modified_players : List Patch
deriving DecidableEq

/-- Tail of `update_save_file_handler` after both patch applications
succeeded on handle `sf2`: recompute the listing, store it, acknowledge
(lines 80-85); a failure while recomputing is caught by the `except` clause
with the listing left untouched. -/
def update_finish (eng : Engine) (st : AppState) (sf2 : SaveFile)
    (prog : List String) (calls : List EngineCall) : HandlerResult :=
  match eng.get_players sf2 with
  | Except.error e =>
      ⟨⟨some sf2, st.players⟩,
        progressEnvelopes prog ++ [errorEnvelope ("Error processing changes: " ++ e)],
        calls ++ [EngineCall.getPlayers]⟩
  | Except.ok ps =>
      ⟨⟨some sf2, ps⟩,
        progressEnvelopes prog ++
          [build_response MessageType.UPDATE_SAVE_FILE (Payload.text "Changes saved"),
            build_response MessageType.GET_PLAYERS (Payload.playerList ps)],
        calls ++ [EngineCall.getPlayers]⟩

/-- Second step of `update_save_file_handler` (lines 77-78): apply the player
patches, if any, to the handle left by the pal step.  The engine mutates the
handle in place, so a failure keeps the partially mutated handle. -/
def update_players_step (eng : Engine) (st : AppState)
    (modified_players : Option (List Patch)) (sf1 : SaveFile)
    (prog : List String) (calls : List EngineCall) : HandlerResult :=
  match modified_players with
  | none => update_finish eng st sf1 prog calls
  | some pls =>
    match eng.update_players sf1 pls with
    | (prog2, sf2, Except.error e) =>
        ⟨⟨some sf2, st.players⟩,
          progressEnvelopes (prog ++ prog2) ++
            [errorEnvelope ("Error processing changes: " ++ e)],
          calls ++ [EngineCall.updatePlayers]⟩
    | (prog2, sf2, Except.ok _) =>
        update_finish eng st sf2 (prog ++ prog2) (calls ++ [EngineCall.updatePlayers])

/-- `update_save_file_handler` (save_file_handler.py lines 55-92). -/
def update_save_file_handler (eng : Engine) (st : AppState) (msg : UpdateData) :
    HandlerResult :=
  let modified_pals : Option (List Patch) :=
    if msg.modified_pals.isEmpty then none else some msg.modified_pals
  let modified_players : Option (List Patch) :=
    if msg.modified_players.isEmpty then none else some msg.modified_players
  match st.save_file with
  | none => ⟨st, [errorEnvelope "Error processing changes: No save file loaded"], []⟩
  | some save_file =>
    match modified_pals with
    | none => update_players_step eng st modified_players save_file [] []
    | some pals =>
      match eng.update_pals save_file pals with
      | (prog1, sf1, Except.error e) =>
          ⟨⟨some sf1, st.players⟩,
            progressEnvelopes prog1 ++ [errorEnvelope ("Error processing changes: " ++ e)],
            [EngineCall.updatePals]⟩
      | (prog1, sf1, Except.ok _) =>
          update_players_step eng st modified_players sf1 prog1 [EngineCall.updatePals]

/-- `download_save_file_handler` (save_file_handler.py lines 95-126). -/
def download_save_file_handler (eng : Engine) (st : AppState) : HandlerResult :=
  match st.save_file with
  | none => ⟨st, [errorEnvelope "Error downloading file: No save file loaded"], []⟩
  | some save_file =>
    match eng.sav save_file with
    | (prog, Except.error e) =>
        ⟨st,
          progressEnvelope "Compressing GVAS to sav 💪..." ::
            (progressEnvelopes prog ++ [errorEnvelope ("Error downloading file: " ++ e)]),
          [EngineCall.sav]⟩
    | (prog, Except.ok sav_file) =>
        ⟨st,
          progressEnvelope "Compressing GVAS to sav 💪..." ::
            (progressEnvelopes prog ++
              [progressEnvelope "Encoding sav file to base64 🤖, get ready here it comes...",
                build_response MessageType.DOWNLOAD_SAVE_FILE
                  (Payload.download "Level.sav" (b64encode sav_file))]),
          [EngineCall.sav]⟩

/-! ## The zip (bundle) handler and its archive-ingestion algorithm -/

/-- One archive entry, as the `zipfile` module presents it: a path and the
bytes `read` returns for it. -/
structure ZipEntry where
  path : String
  bytes : List Nat
deriving DecidableEq

/-- `zip_ref.namelist()`: the entry names in listing order.  CPython's
`ZipFile.namelist` always returns a list object, never `None`; the `Option`
codomain records exactly that, so the handler's `is None` check below is a
dead branch. -/
def namelist (z : List ZipEntry) : Option (List String) :=
  some (z.map ZipEntry.path)

/-- `zip_ref.read(name)`: the bytes of the named entry.  For duplicated
names CPython's `NameToInfo` map keeps the last entry.  Both call sites in
the handler only read names guarded to be in `namelist`, so the default for
a missing name is never observable. -/
def zip_read (z : List ZipEntry) (name : String) : List Nat :=
  (((z.filter (fun e => e.path == name)).getLast?).map ZipEntry.bytes).getD []

/-- Python `str.split(sep)` on a character list for a one-character
separator: splits at every occurrence, keeping empty parts, so the result is
always non-empty. -/
def py_split (sep : Char) : List Char → List (List Char)
  | [] => [[]]
  | c :: rest =>
    let r := py_split sep rest
    if c = sep then [] :: r
    else
      match r with
      | h :: t => (c :: h) :: t
      | [] => [[c]]

/-- Python `str.startswith`. -/
def py_startswith (s pre : String) : Bool :=
  pre.data.isPrefixOf s.data

/-- Python `str.endswith`. -/
def py_endswith (s suf : String) : Bool :=
  suf.data.reverse.isPrefixOf s.data.reverse

/-- `file_list[0].split("/")[0]` for a non-empty listing: the first path
segment of the first entry (`str.split` always yields a non-empty list). -/
def save_id_of (file_list : List String) : String :=
  ⟨(py_split (Char.ofNat 47) (file_list.headD "").data).headD []⟩

/-- Line 156-160: the entries under `<save_id>/Players/` with a `.sav`
extension. -/
def player_files_of (file_list : List String) (save_id : String) : List String :=
  file_list.filter (fun f => py_startswith f (save_id ++ "/Players/") && py_endswith f ".sav")

/-- `os.path.basename` (posix): the part after the last `/`. -/
def py_basename (s : String) : String :=
  ⟨(py_split (Char.ofNat 47) s.data).getLastD []⟩

/-- Index of the last `.` of a character list, if any. -/
def lastDotIdx (cs : List Char) : Option Nat :=
  match cs.reverse.findIdx? (fun c => c == '.') with
  | none => none
  | some j => some (cs.length - 1 - j)

/-- The root of `os.path.splitext` on a basename: everything before the last
dot, unless every character before that dot is itself a dot (CPython keeps
leading dots with the root, e.g. `".sav"` and `"..sav"` are left whole). -/
def splitext_stem (s : String) : String :=
  match lastDotIdx s.data with
  | none => s
  | some n => if (s.data.take n).all (fun c => c == '.') then s else ⟨s.data.take n⟩

/-- The value of a hexadecimal digit, as `int(..., 16)` accepts them. -/
def hex_val (c : Char) : Option Nat :=
  if '0' ≤ c ∧ c ≤ '9' then some (c.toNat - 48)
  else if 'a' ≤ c ∧ c ≤ 'f' then some (c.toNat - 87)
  else if 'A' ≤ c ∧ c ≤ 'F' then some (c.toNat - 55)
  else none

/-- Parse a character list as a hexadecimal numeral. -/
def hex_digits? (cs : List Char) : Option Nat :=
  cs.foldl
    (fun acc c =>
      match acc, hex_val c with
      | some a, some v => some (a * 16 + v)
      | _, _ => none)
    (some 0)

/-- `int(s, 16)`, restricted to plain hex strings (the surrounding UUID code
never feeds it the sign/underscore/whitespace forms `int` also tolerates). -/
def int_base16 (s : String) : Except String Nat :=
  match hex_digits? s.data with
  | some n => Except.ok n
  | none => Except.error ("invalid literal for int() with base 16: \x27" ++ s ++ "\x27")

/-- `str.strip("\x7b\x7d")`: drop leading and trailing brace characters. -/
def strip_braces (s : String) : String :=
  ⟨(((s.data.dropWhile (fun c => c == Char.ofNat 123 || c == Char.ofNat 125)).reverse.dropWhile
      (fun c => c == Char.ofNat 123 || c == Char.ofNat 125)).reverse)⟩

/-- Python `str.replace(pat, "")`, fuelled by the input length so that the
recursion is structural: drop every occurrence of `pat`, resuming the scan
after each removed occurrence. -/
def py_remove_aux (pat : List Char) : Nat → List Char → List Char
  | _, [] => []
  | 0, cs => cs
  | fuel + 1, c :: cs =>
    if pat.isPrefixOf (c :: cs) then py_remove_aux pat fuel ((c :: cs).drop pat.length)
    else c :: py_remove_aux pat fuel cs

def py_remove (pat : String) (s : String) : String :=
  if pat.data.isEmpty then s else ⟨py_remove_aux pat.data s.data.length s.data⟩

/-- `uuid.UUID(s)` as its 128-bit integer value, after CPython's constructor:
remove every `urn:` and `uuid:`, strip braces, remove hyphens, require
exactly 32 characters, then parse them as hexadecimal. -/
def uuid_UUID (s : String) : Except String Nat :=
  let hex := py_remove "uuid:" (py_remove "urn:" s)
  let hex := py_remove "-" (strip_braces hex)
  if hex.length = 32 then int_base16 hex
  else Except.error "badly formed hexadecimal UUID string"

/-- The key a player file contributes to `player_data`:
`uuid.UUID(os.path.splitext(os.path.basename(f))[0])` (lines 163-164). -/
def uuid_key (f : String) : Except String Nat :=
  uuid_UUID (splitext_stem (py_basename f))

def exceptIsOk : Except String Nat → Bool
  | Except.ok _ => true
  | Except.error _ => false

/-- Python `dict` assignment `m[k] = v` on an insertion-ordered association
list: overwrite in place when the key is present (keeping its position),
append at the end otherwise. -/
def dict_insert : List (Nat × List Nat) → Nat → List Nat → List (Nat × List Nat)
  | [], k, v => [(k, v)]
  | p :: m, k, v => if p.1 == k then (k, v) :: m else p :: dict_insert m k v

/-- Python `dict` lookup. -/
def dict_get? : List (Nat × List Nat) → Nat → Option (List Nat)
  | [], _ => none
  | p :: m, k => if p.1 == k then some p.2 else dict_get? m k

/-- The keys of the association list, in insertion order. -/
def dict_keys (m : List (Nat × List Nat)) : List Nat := m.map Prod.fst

/-- The `for player_file in player_files` loop of lines 162-165: build the
`player_data` dict, aborting the whole ingestion on the first name whose
stem is not a valid UUID. -/
def build_player_data (read : String → List Nat) :
    List String → List (Nat × List Nat) → Except String (List (Nat × List Nat))
  | [], acc => Except.ok acc
  | f :: fs, acc =>
    match uuid_key f with
    | Except.error e => Except.error e
    | Except.ok k => build_player_data read fs (dict_insert acc k (read f))

/-- Python `repr` of a string, for quote-free names. -/
def py_str_repr (s : String) : String := "\x27" ++ s ++ "\x27"

/-- The comma-separated items of Python's `str(list)` rendering. -/
def py_repr_items : List String → String
  | [] => ""
  | [s] => py_str_repr s
  | s :: t :: rest => py_str_repr s ++ ", " ++ py_repr_items (t :: rest)

/-- Python's `f"{file_list}"` rendering of a list of strings. -/
def py_list_repr (l : List String) : String :=
  "[" ++ py_repr_items l ++ "]"

/-- The archive-ingestion block of `load_zip_file_handler` (lines 140-165):
everything inside the `with` statement up to the Save Engine call.  On
success it returns the `save_id`, the `Level.sav` bytes and the keyed player
blobs.  `file_list[0]` raises `IndexError("list index out of range")` on an
empty listing, since the `is None` guard never fires. -/
def zip_ingest (z : List ZipEntry) :
    Except String (String × List Nat × List (Nat × List Nat)) :=
  match namelist z with
  | none => Except.error "Zip file is empty"
  | some file_list =>
    if file_list.isEmpty then Except.error "list index out of range"
    else
      let save_id := save_id_of file_list
      let level_sav := save_id ++ "/Level.sav"
      if file_list.contains level_sav then
        let level_sav_data := zip_read z level_sav
        let player_files := player_files_of file_list save_id
        (build_player_data (zip_read z) player_files []).map
          (fun pd => (save_id, level_sav_data, pd))
      else
        Except.error ("Zip file does not contain \x27Level.sav\x27, available files: " ++
          py_list_repr file_list)

/-- `load_zip_file_handler` (save_file_handler.py lines 129-198).  The input
is the outcome of `zipfile.ZipFile(io.BytesIO(zip_data), "r")`: either the
parsed entry listing or the exception a malformed container raises. -/
def load_zip_file_handler (eng : Engine) (st : AppState)
    (zr : Except String (List ZipEntry)) : HandlerResult :=
  match zr with
  | Except.error e =>
      ⟨st, [errorEnvelope ("Error processing zip file: " ++ e)], []⟩
  | Except.ok z =>
    match zip_ingest z with
    | Except.error e =>
        ⟨st, [errorEnvelope ("Error processing zip file: " ++ e)], []⟩
    | Except.ok (save_id, level_sav_data, player_data) =>
      match eng.process_save_files save_id level_sav_data player_data with
      | (prog, Except.error e) =>
          ⟨st, progressEnvelopes prog ++ [errorEnvelope ("Error processing zip file: " ++ e)],
            [EngineCall.processSaveFiles]⟩
      | (prog, Except.ok (sf, ps)) =>
          ⟨⟨some sf, ps⟩,
            progressEnvelopes prog ++
              [progressEnvelope "Zip file uploaded and processed successfully, results coming right up!",
                build_response MessageType.LOAD_ZIP_FILE (Payload.nameSize sf.name sf.size),
                build_response MessageType.GET_PLAYERS (Payload.playerList ps)],
            [EngineCall.processSaveFiles]⟩

/-! ## Auxiliary definitions used by the statements -/

/-- A terminal envelope of a handler whose success terminal type is
`success`: that success-class message or an ERROR message. -/
def isTerminalEnvelope (success : MessageType) (env : Envelope) : Bool :=
  env.type == success || env.type == MessageType.ERROR

/-- Whether an ingestion outcome is the distinct empty-archive error. -/
def is_zip_empty_error : Except String (String × List Nat × List (Nat × List Nat)) → Bool
  | Except.error e => e == "Zip file is empty"
  | Except.ok _ => false

/-- Whether bundle ingestion accepted the archive. -/
def ingest_ok : Except String (String × List Nat × List (Nat × List Nat)) → Bool
  | Except.ok _ => true
  | Except.error _ => false

/-- The last element of a list satisfying a predicate. -/
def find_last (p : String → Bool) : List String → Option String
  | [] => none
  | f :: fs =>
    match find_last p fs with
    | some g => some g
    | none => if p f then some f else none

/-- Whether a player file's stem parses to the UUID value `k`. -/
def keyed_as (k : Nat) (f : String) : Bool :=
  match uuid_key f with
  | Except.ok k2 => k2 == k
  | Except.error _ => false

/-- Whether `pat` occurs as a contiguous substring of `l` (used to state
that an error message does or does not name something). -/
def has_sub (pat : List Char) : List Char → Bool
  | [] => pat.isEmpty
  | c :: cs => pat.isPrefixOf (c :: cs) || has_sub pat cs

/-- A lossless sample engine for concrete witnesses: ingestion stores the
raw bytes and serialization returns them unchanged. -/
def sampleSave (x : List Nat) : SaveFile := ⟨"up.sav", x.length, x⟩

def engOk : Engine where
  process_save_file := fun x => (["parsing"], Except.ok (sampleSave x, [7]))
  process_save_files := fun _ lv _ => ([], Except.ok (⟨"zip.sav", lv.length, lv⟩, [7]))
  update_pals := fun sf _ => ([], sf, Except.ok ())
  update_players := fun sf _ => ([], sf, Except.ok ())
  get_players := fun _ => Except.ok [7]
  sav := fun sf => ([], Except.ok sf.gvas)

/-- A failing sample engine for concrete witnesses; its pal update also
mutates the handle before failing. -/
def engFail : Engine where
  process_save_file := fun _ => (["step"], Except.error "boom")
  process_save_files := fun _ _ _ => ([], Except.error "boom")
  update_pals := fun sf _ => ([], ⟨sf.name, sf.size + 1, sf.gvas⟩, Except.error "boom")
  update_players := fun sf _ => ([], sf, Except.error "boom")
  get_players := fun _ => Except.error "boom"
  sav := fun _ => ([], Except.error "boom")

/-- A concrete read function distinguishing the uppercase-free and
hyphen-free spellings of the zero UUID, for the key-collapse witness. -/
def sample_read : String → List Nat := fun f =>
  if f = "S1/Players/00000000000000000000000000000000.sav" then [2] else [1]

/-- An empty session and a session holding a loaded save. -/
def st0 : AppState := ⟨none, []⟩

def stLoaded : AppState := ⟨some ⟨"old.sav", 1, [5]⟩, [3]⟩

/-! ## Base64 roundtrip -/

theorem b64Val_b64Char : ∀ n, n < 64 → b64Val (b64Char n) = some n := by decide

theorem b64Char_ne_pad : ∀ n, n < 64 → (b64Char n != '=') = true := by decide

/-- List-level roundtrip: decoding the encoder's character stream recovers
the original byte list. -/
theorem b64_roundtrip_chars : ∀ (l : List Nat), (∀ b ∈ l, b < 256) →
    (b64Vals ((b64encodeChars l).filter (fun c => c != '='))).map b64decodeVals = some l
  | [], _ => rfl
  | [a], h => by
      have ha : a < 256 := h a (by simp)
      have e0 := b64Val_b64Char (a / 4) (by omega)
      have e1 := b64Val_b64Char ((a % 4) * 16) (by omega)
      have n0 := b64Char_ne_pad (a / 4) (by omega)
      have n1 := b64Char_ne_pad ((a % 4) * 16) (by omega)
      simp only [b64encodeChars, List.filter_cons, n0, n1, if_true, bne_self_eq_false,
        Bool.false_eq_true, if_false, List.filter_nil]
      simp only [b64Vals, e0, e1, b64decodeVals, Option.map_some']
      simp only [Option.some.injEq, List.cons.injEq, and_true]
      omega
  | [a, b], h => by
      have ha : a < 256 := h a (by simp)
      have hb : b < 256 := h b (by simp)
      have e0 := b64Val_b64Char (a / 4) (by omega)
      have e1 := b64Val_b64Char ((a % 4) * 16 + b / 16) (by omega)
      have e2 := b64Val_b64Char ((b % 16) * 4) (by omega)
      have n0 := b64Char_ne_pad (a / 4) (by omega)
      have n1 := b64Char_ne_pad ((a % 4) * 16 + b / 16) (by omega)
      have n2 := b64Char_ne_pad ((b % 16) * 4) (by omega)
      simp only [b64encodeChars, List.filter_cons, n0, n1, n2, if_true, bne_self_eq_false,
        Bool.false_eq_true, if_false, List.filter_nil]
      simp only [b64Vals, e0, e1, e2, b64decodeVals, Option.map_some']
      simp only [Option.some.injEq, List.cons.injEq, and_true]
      omega
  | a :: b :: c :: rest, h => by
      have ha : a < 256 := h a (by simp)
      have hb : b < 256 := h b (by simp)
      have hc : c < 256 := h c (by simp)
      have ih := b64_roundtrip_chars rest (fun x hx => h x (by simp [hx]))
      have e0 := b64Val_b64Char (a / 4) (by omega)
      have e1 := b64Val_b64Char ((a % 4) * 16 + b / 16) (by omega)
      have e2 := b64Val_b64Char ((b % 16) * 4 + c / 64) (by omega)
      have e3 := b64Val_b64Char (c % 64) (by omega)
      have n0 := b64Char_ne_pad (a / 4) (by omega)
      have n1 := b64Char_ne_pad ((a % 4) * 16 + b / 16) (by omega)
      have n2 := b64Char_ne_pad ((b % 16) * 4 + c / 64) (by omega)
      have n3 := b64Char_ne_pad (c % 64) (by omega)
      rcases hvs : b64Vals ((b64encodeChars rest).filter (fun c => c != '=')) with _ | vs
      · rw [hvs] at ih
        simp at ih
      · rw [hvs] at ih
        have hdv : b64decodeVals vs = rest := by simpa using ih
        simp only [b64encodeChars, List.filter_cons, n0, n1, n2, n3, if_true]
        simp only [b64Vals, e0, e1, e2, e3, hvs, Option.map_some']
        simp only [b64decodeVals, hdv]
        simp only [Option.some.injEq, List.cons.injEq, and_true, and_self]
        omega

/-- `b64decode` inverts `b64encode` on byte lists. -/
theorem b64_roundtrip (l : List Nat) (h : ∀ b ∈ l, b < 256) :
    b64decode (b64encode l) = some l :=
  b64_roundtrip_chars l h

/-! ## Helper lemmas about progress envelopes -/

theorem countP_progressEnvelopes (p : Envelope → Bool)
    (hp : ∀ s, p (progressEnvelope s) = false) :
    ∀ l : List String, (progressEnvelopes l).countP p = 0 := by
  intro l
  induction l with
  | nil => rfl
  | cons s l ih =>
      simp only [progressEnvelopes, List.map_cons, List.countP_cons, hp s] at *
      simpa [progressEnvelopes] using ih

theorem filter_progressEnvelopes (p : Envelope → Bool)
    (hp : ∀ s, p (progressEnvelope s) = false) :
    ∀ l : List String, (progressEnvelopes l).filter p = [] := by
  intro l
  induction l with
  | nil => rfl
  | cons s l ih =>
      simp only [progressEnvelopes, List.map_cons, List.filter_cons, hp s] at *
      simpa [progressEnvelopes] using ih

theorem any_progressEnvelopes (p : Envelope → Bool)
    (hp : ∀ s, p (progressEnvelope s) = false) :
    ∀ l : List String, (progressEnvelopes l).any p = false := by
  intro l
  induction l with
  | nil => rfl
  | cons s l ih =>
      simp only [progressEnvelopes, List.map_cons, List.any_cons, hp s] at *
      simpa [progressEnvelopes] using ih

/-! ## Claim theorems -/

/-- Claim C1: handling LOAD_SAVE_FILE with artifact `x` and then
DOWNLOAD_SAVE_FILE, with no update in between, yields a DOWNLOAD_SAVE_FILE
envelope whose base64-decoded content is byte-identical to `x`, under the
hypothesis that the Save Engine is lossless (`serialize(ingest(x)) == x`). -/
theorem load_then_download_roundtrip (eng : Engine) (st : AppState) (x : List Nat)
    (prog : List String) (sf : SaveFile) (ps : List Player)
    (hbytes : ∀ b ∈ x, b < 256)
    (hload : eng.process_save_file x = (prog, Except.ok (sf, ps)))
    (hlossless : (eng.sav sf).2 = Except.ok x) :
    ((download_save_file_handler eng (load_save_file_handler eng st x).state).sent.filter
        (fun env => env.type == MessageType.DOWNLOAD_SAVE_FILE)) =
      [build_response MessageType.DOWNLOAD_SAVE_FILE
        (Payload.download "Level.sav" (b64encode x))] ∧
    b64decode (b64encode x) = some x := by
  constructor
  · rcases hsav : eng.sav sf with ⟨prog2, r2⟩
    have hr2 : r2 = Except.ok x := by rw [hsav] at hlossless; simpa using hlossless
    subst hr2
    have hfp : ∀ l : List String, (progressEnvelopes l).filter
        (fun env => env.type == MessageType.DOWNLOAD_SAVE_FILE) = [] :=
      filter_progressEnvelopes _ (fun s => rfl)
    simp only [load_save_file_handler, hload]
    simp only [download_save_file_handler, hsav]
    simp [List.filter_cons, List.filter_append, hfp, progressEnvelope, errorEnvelope,
      build_response]
  · exact b64_roundtrip x hbytes

/-- Witness for C1 at the concrete artifact [1, 2, 250] and a concrete
lossless engine. -/
theorem load_then_download_roundtrip_witness :
    (((download_save_file_handler engOk
          (load_save_file_handler engOk st0 [1, 2, 250]).state).sent.filter
        (fun env => env.type == MessageType.DOWNLOAD_SAVE_FILE)) =
      [build_response MessageType.DOWNLOAD_SAVE_FILE
        (Payload.download "Level.sav" (b64encode [1, 2, 250]))]) ∧
    b64decode (b64encode [1, 2, 250]) = some [1, 2, 250] :=
  load_then_download_roundtrip engOk st0 [1, 2, 250] ["parsing"]
    (sampleSave [1, 2, 250]) [7] (by decide) rfl rfl

/-- Claim C2: a LOAD_SAVE_FILE request whose processing fails leaves the
session state exactly as it was, emits exactly one ERROR envelope, and sends
no LOAD_SAVE_FILE or GET_PLAYERS envelope. -/
theorem load_failure_leaves_state (eng : Engine) (st : AppState) (x : List Nat)
    (prog : List String) (e : String)
    (hfail : eng.process_save_file x = (prog, Except.error e)) :
    (load_save_file_handler eng st x).state = st ∧
    (load_save_file_handler eng st x).sent.countP
      (fun env => env.type == MessageType.ERROR) = 1 ∧
    (load_save_file_handler eng st x).sent.countP
      (fun env => env.type == MessageType.LOAD_SAVE_FILE ||
        env.type == MessageType.GET_PLAYERS) = 0 := by
  have hc1 : ∀ l : List String, (progressEnvelopes l).countP
      (fun env => env.type == MessageType.ERROR) = 0 :=
    countP_progressEnvelopes _ (fun s => rfl)
  have hc2 : ∀ l : List String, (progressEnvelopes l).countP
      (fun env => env.type == MessageType.LOAD_SAVE_FILE ||
        env.type == MessageType.GET_PLAYERS) = 0 :=
    countP_progressEnvelopes _ (fun s => rfl)
  refine ⟨?_, ?_, ?_⟩ <;>
    simp [load_save_file_handler, hfail, List.countP_append, List.countP_cons, hc1, hc2,
      errorEnvelope, build_response]

/-- Witness for C2: the failing engine at a concrete input and a previously
loaded session. -/
theorem load_failure_leaves_state_witness :
    engFail.process_save_file [0] = (["step"], Except.error "boom") ∧
    (load_save_file_handler engFail stLoaded [0]).state = stLoaded ∧
    (load_save_file_handler engFail stLoaded [0]).sent.countP
      (fun env => env.type == MessageType.ERROR) = 1 ∧
    (load_save_file_handler engFail stLoaded [0]).sent.countP
      (fun env => env.type == MessageType.LOAD_SAVE_FILE ||
        env.type == MessageType.GET_PLAYERS) = 0 :=
  ⟨rfl,
    (load_failure_leaves_state engFail stLoaded [0] ["step"] "boom" rfl).1,
    (load_failure_leaves_state engFail stLoaded [0] ["step"] "boom" rfl).2.1,
    (load_failure_leaves_state engFail stLoaded [0] ["step"] "boom" rfl).2.2⟩

theorem update_finish_terminal (eng : Engine) (st : AppState) (sf : SaveFile)
    (prog : List String) (calls : List EngineCall) :
    (update_finish eng st sf prog calls).sent.countP
      (isTerminalEnvelope MessageType.UPDATE_SAVE_FILE) = 1 := by
  have hc : ∀ l : List String, (progressEnvelopes l).countP
      (isTerminalEnvelope MessageType.UPDATE_SAVE_FILE) = 0 :=
    countP_progressEnvelopes _ (fun s => rfl)
  rcases h : eng.get_players sf with e | ps <;>
    simp [update_finish, h, List.countP_append, List.countP_cons, hc,
      isTerminalEnvelope, errorEnvelope, build_response]

theorem update_players_step_terminal (eng : Engine) (st : AppState)
    (mp : Option (List Patch)) (sf : SaveFile) (prog : List String)
    (calls : List EngineCall) :
    (update_players_step eng st mp sf prog calls).sent.countP
      (isTerminalEnvelope MessageType.UPDATE_SAVE_FILE) = 1 := by
  have hc : ∀ l : List String, (progressEnvelopes l).countP
      (isTerminalEnvelope MessageType.UPDATE_SAVE_FILE) = 0 :=
    countP_progressEnvelopes _ (fun s => rfl)
  cases mp with
  | none => exact update_finish_terminal eng st sf prog calls
  | some pls =>
      rcases h : eng.update_players sf pls with ⟨prog2, sf2, r2⟩
      cases r2 with
      | error e =>
          simp [update_players_step, h, List.countP_append, List.countP_cons, hc,
            isTerminalEnvelope, errorEnvelope, build_response]
      | ok u =>
          simp only [update_players_step, h]
          exact update_finish_terminal eng st sf2 (prog ++ prog2) (calls ++ [EngineCall.updatePlayers])

/-- Claim C3: for each of the four message types, handling sends exactly one
terminal envelope (the handler's success terminal or ERROR), and the handler
is a total function (no exception escapes). -/
theorem handlers_single_terminal (eng : Engine) (st : AppState) (x : List Nat)
    (zr : Except String (List ZipEntry)) (upd : UpdateData) :
    (load_save_file_handler eng st x).sent.countP
      (isTerminalEnvelope MessageType.LOAD_SAVE_FILE) = 1 ∧
    (load_zip_file_handler eng st zr).sent.countP
      (isTerminalEnvelope MessageType.LOAD_ZIP_FILE) = 1 ∧
    (update_save_file_handler eng st upd).sent.countP
      (isTerminalEnvelope MessageType.UPDATE_SAVE_FILE) = 1 ∧
    (download_save_file_handler eng st).sent.countP
      (isTerminalEnvelope MessageType.DOWNLOAD_SAVE_FILE) = 1 := by
  refine ⟨?_, ?_, ?_, ?_⟩
  · have hc : ∀ l : List String, (progressEnvelopes l).countP
        (isTerminalEnvelope MessageType.LOAD_SAVE_FILE) = 0 :=
      countP_progressEnvelopes _ (fun s => rfl)
    rcases h : eng.process_save_file x with ⟨prog, r⟩
    cases r with
    | error e =>
        simp [load_save_file_handler, h, List.countP_append, List.countP_cons, hc,
          isTerminalEnvelope, errorEnvelope, build_response]
    | ok v =>
        rcases v with ⟨sf, ps⟩
        simp [load_save_file_handler, h, List.countP_append, List.countP_cons, hc,
          isTerminalEnvelope, progressEnvelope, errorEnvelope, build_response]
  · have hc : ∀ l : List String, (progressEnvelopes l).countP
        (isTerminalEnvelope MessageType.LOAD_ZIP_FILE) = 0 :=
      countP_progressEnvelopes _ (fun s => rfl)
    cases zr with
    | error e =>
        simp [load_zip_file_handler, List.countP_cons, isTerminalEnvelope,
          errorEnvelope, build_response]
    | ok z =>
        rcases hz : zip_ingest z with e | ⟨sid, lvl, pd⟩
        · simp [load_zip_file_handler, hz, List.countP_cons, isTerminalEnvelope,
            errorEnvelope, build_response]
        · rcases h : eng.process_save_files sid lvl pd with ⟨prog, r⟩
          cases r with
          | error e =>
              simp [load_zip_file_handler, hz, h, List.countP_append, List.countP_cons,
                hc, isTerminalEnvelope, errorEnvelope, build_response]
          | ok v =>
              rcases v with ⟨sf, ps⟩
              simp [load_zip_file_handler, hz, h, List.countP_append, List.countP_cons,
                hc, isTerminalEnvelope, progressEnvelope, errorEnvelope, build_response]
  · have hc : ∀ l : List String, (progressEnvelopes l).countP
        (isTerminalEnvelope MessageType.UPDATE_SAVE_FILE) = 0 :=
      countP_progressEnvelopes _ (fun s => rfl)
    cases hsf : st.save_file with
    | none =>
        simp [update_save_file_handler, hsf, List.countP_cons, isTerminalEnvelope,
          errorEnvelope, build_response]
    | some sf =>
        cases hmp : upd.modified_pals.isEmpty
        case false =>
          rcases h : eng.update_pals sf upd.modified_pals with ⟨prog1, sf1, r1⟩
          cases r1 with
          | error e =>
              simp [update_save_file_handler, hsf, hmp, h, List.countP_append,
                List.countP_cons, hc, isTerminalEnvelope, errorEnvelope, build_response]
          | ok u =>
              simp only [update_save_file_handler, hsf, hmp, h, Bool.false_eq_true,
                if_false, eq_self_iff_true, if_true]
              exact update_players_step_terminal eng st _ sf1 prog1 [EngineCall.updatePals]
        case true =>
          simp only [update_save_file_handler, hsf, hmp, eq_self_iff_true, if_true]
          exact update_players_step_terminal eng st _ sf [] []
  · have hc : ∀ l : List String, (progressEnvelopes l).countP
        (isTerminalEnvelope MessageType.DOWNLOAD_SAVE_FILE) = 0 :=
      countP_progressEnvelopes _ (fun s => rfl)
    cases hsf : st.save_file with
    | none =>
        simp [download_save_file_handler, hsf, List.countP_cons, isTerminalEnvelope,
          errorEnvelope, build_response]
    | some sf =>
        rcases h : eng.sav sf with ⟨prog, r⟩
        cases r with
        | error e =>
            simp [download_save_file_handler, hsf, h, List.countP_append,
              List.countP_cons, hc, isTerminalEnvelope, progressEnvelope,
              errorEnvelope, build_response]
        | ok bytes =>
            simp [download_save_file_handler, hsf, h, List.countP_append,
              List.countP_cons, hc, isTerminalEnvelope, progressEnvelope,
              errorEnvelope, build_response]

/-- Claim C5: UPDATE_SAVE_FILE or DOWNLOAD_SAVE_FILE with no save loaded
fails immediately with a single no-save-loaded ERROR envelope, performs no
Save Engine call, and leaves the session state untouched. -/
theorem update_download_no_save_loaded (eng : Engine) (st : AppState)
    (upd : UpdateData) (h : st.save_file = none) :
    update_save_file_handler eng st upd =
      ⟨st, [errorEnvelope "Error processing changes: No save file loaded"], []⟩ ∧
    download_save_file_handler eng st =
      ⟨st, [errorEnvelope "Error downloading file: No save file loaded"], []⟩ := by
  constructor
  · simp only [update_save_file_handler, h]
  · simp only [download_save_file_handler, h]

/-- Witness for C5 on the empty session. -/
theorem update_download_no_save_loaded_witness :
    st0.save_file = none ∧
    update_save_file_handler engOk st0 ⟨[1], [2]⟩ =
      ⟨st0, [errorEnvelope "Error processing changes: No save file loaded"], []⟩ ∧
    download_save_file_handler engOk st0 =
      ⟨st0, [errorEnvelope "Error downloading file: No save file loaded"], []⟩ :=
  ⟨rfl,
    (update_download_no_save_loaded engOk st0 ⟨[1], [2]⟩ rfl).1,
    (update_download_no_save_loaded engOk st0 ⟨[1], [2]⟩ rfl).2⟩

theorem update_finish_players_frame (eng : Engine) (st : AppState) (sf : SaveFile)
    (prog : List String) (calls : List EngineCall)
    (h : (update_finish eng st sf prog calls).sent.any
      (fun env => env.type == MessageType.ERROR) = true) :
    (update_finish eng st sf prog calls).state.players = st.players := by
  have ha : ∀ l : List String, (progressEnvelopes l).any
      (fun env => env.type == MessageType.ERROR) = false :=
    any_progressEnvelopes _ (fun s => rfl)
  rcases hg : eng.get_players sf with e | ps
  · simp [update_finish, hg]
  · exfalso
    rw [update_finish] at h
    simp [hg, List.any_append, ha, build_response] at h

theorem update_players_step_players_frame (eng : Engine) (st : AppState)
    (mp : Option (List Patch)) (sf : SaveFile) (prog : List String)
    (calls : List EngineCall)
    (h : (update_players_step eng st mp sf prog calls).sent.any
      (fun env => env.type == MessageType.ERROR) = true) :
    (update_players_step eng st mp sf prog calls).state.players = st.players := by
  cases mp with
  | none => exact update_finish_players_frame eng st sf prog calls h
  | some pls =>
      rcases hu : eng.update_players sf pls with ⟨prog2, sf2, r2⟩
      cases r2 with
      | error e => simp [update_players_step, hu]
      | ok u =>
          rw [update_players_step, hu] at h ⊢
          exact update_finish_players_frame eng st sf2 (prog ++ prog2)
            (calls ++ [EngineCall.updatePlayers]) h

/-- Claim C8: when an UPDATE_SAVE_FILE request fails after the
no-save-loaded check (an ERROR envelope is emitted), the stored entity
listing keeps its pre-request value, even though the save handle may have
been partially mutated. -/
theorem update_failure_preserves_players (eng : Engine) (st : AppState)
    (upd : UpdateData)
    (hfail : (update_save_file_handler eng st upd).sent.any
      (fun env => env.type == MessageType.ERROR) = true) :
    (update_save_file_handler eng st upd).state.players = st.players := by
  cases hsf : st.save_file with
  | none => simp [update_save_file_handler, hsf]
  | some sf =>
      cases hmp : upd.modified_pals.isEmpty
      case true =>
        rw [update_save_file_handler] at hfail ⊢
        simp only [hsf, hmp, eq_self_iff_true, if_true] at hfail ⊢
        exact update_players_step_players_frame eng st _ sf [] [] hfail
      case false =>
        rcases hu : eng.update_pals sf upd.modified_pals with ⟨prog1, sf1, r1⟩
        cases r1 with
        | error e =>
            simp [update_save_file_handler, hsf, hmp, hu]
        | ok u =>
            rw [update_save_file_handler] at hfail ⊢
            simp only [hsf, hmp, hu, Bool.false_eq_true, if_false] at hfail ⊢
            exact update_players_step_players_frame eng st _ sf1 prog1
              [EngineCall.updatePals] hfail

/-- Witness for C8: a failing pal update on a loaded session keeps the
stored listing. -/
theorem update_failure_preserves_players_witness :
    (update_save_file_handler engFail stLoaded ⟨[1], []⟩).sent.any
      (fun env => env.type == MessageType.ERROR) = true ∧
    (update_save_file_handler engFail stLoaded ⟨[1], []⟩).state.players =
      stLoaded.players :=
  ⟨by decide, update_failure_preserves_players engFail stLoaded ⟨[1], []⟩ (by decide)⟩

theorem int_base16_error_ne_empty (s e : String)
    (h : int_base16 s = Except.error e) : (e == "Zip file is empty") = false := by
  rw [int_base16] at h
  rcases hd : hex_digits? s.data with _ | n
  · rw [hd] at h
    injection h with h
    subst h
    rw [beq_eq_false_iff_ne]
    intro heq
    have hlen := congrArg String.length heq
    rw [String.length_append, String.length_append] at hlen
    have hgt : 17 < ("invalid literal for int() with base 16: \x27" : String).length := by
      decide
    have h17 : ("Zip file is empty" : String).length = 17 := by decide
    omega
  · rw [hd] at h
    cases h

theorem uuid_UUID_error_ne_empty (s e : String)
    (h : uuid_UUID s = Except.error e) : (e == "Zip file is empty") = false := by
  simp only [uuid_UUID] at h
  split at h
  · exact int_base16_error_ne_empty _ _ h
  · injection h with h
    subst h
    decide

theorem build_player_data_error (read : String → List Nat) :
    ∀ (fs : List String) (acc : List (Nat × List Nat)) (e : String),
      build_player_data read fs acc = Except.error e →
      ∃ f, uuid_key f = Except.error e
  | [], _, e, h => by simp [build_player_data] at h
  | f :: fs, acc, e, h => by
      rw [build_player_data] at h
      rcases hk : uuid_key f with e2 | k
      · rw [hk] at h
        injection h with h
        exact ⟨f, by rw [hk, h]⟩
      · rw [hk] at h
        exact build_player_data_error read fs _ e h

theorem zip_ingest_ne_empty_error : ∀ z : List ZipEntry,
    is_zip_empty_error (zip_ingest z) = false := by
  intro z
  cases z with
  | nil => rfl
  | cons e0 zs =>
      simp only [zip_ingest, namelist, List.map_cons, List.isEmpty_cons, Bool.false_eq_true,
        if_false]
      split
      · rcases hb : build_player_data (zip_read (e0 :: zs))
            (player_files_of (e0.path :: List.map ZipEntry.path zs)
              (save_id_of (e0.path :: List.map ZipEntry.path zs))) [] with e | pd
        · obtain ⟨f, hf⟩ := build_player_data_error _ _ _ _ hb
          simpa [Except.map, is_zip_empty_error] using
            uuid_UUID_error_ne_empty _ _ hf
        · simp [Except.map, is_zip_empty_error]
      · simp only [is_zip_empty_error]
        rw [beq_eq_false_iff_ne]
        intro heq
        have hlen := congrArg String.length heq
        rw [String.length_append] at hlen
        have hgt : 17 <
            ("Zip file does not contain \x27Level.sav\x27, available files: " : String).length := by
          decide
        have h17 : ("Zip file is empty" : String).length = 17 := by decide
        omega

/-- Claim C4 (code bug): on an empty archive listing the handler does not
fail with the distinct "Zip file is empty" validation error; the dead
`is None` guard is skipped (CPython's `namelist` always returns a list) and
the root-id derivation `file_list[0]` raises `IndexError`, so the client
sees "list index out of range".  Moreover no ingestion outcome whatsoever is
the distinct empty-archive error. -/
theorem empty_zip_index_error :
    (∀ (eng : Engine) (st : AppState),
      load_zip_file_handler eng st (Except.ok []) =
        ⟨st, [errorEnvelope "Error processing zip file: list index out of range"], []⟩) ∧
    (∀ z : List ZipEntry, is_zip_empty_error (zip_ingest z) = false) :=
  ⟨fun _ _ => rfl, zip_ingest_ne_empty_error⟩

theorem build_player_data_fails (read : String → List Nat) :
    ∀ (fs : List String) (acc : List (Nat × List Nat)),
      (∃ f ∈ fs, exceptIsOk (uuid_key f) = false) →
      ∃ e, build_player_data read fs acc = Except.error e
  | [], _, h => by simp at h
  | f :: fs, acc, h => by
      rcases hk : uuid_key f with e2 | k
      · exact ⟨e2, by rw [build_player_data, hk]⟩
      · rcases h with ⟨g, hg, hbad⟩
        rcases List.mem_cons.mp hg with rfl | hg2
        · rw [hk] at hbad
          simp [exceptIsOk] at hbad
        · rw [build_player_data, hk]
          exact build_player_data_fails read fs _ ⟨g, hg2, hbad⟩

/-- Claim C6: a bundle containing a player file whose stem does not parse as
a UUID fails ingestion as a whole: session state unchanged, the Save Engine
is never invoked (no partial bundle is consumed), exactly one ERROR envelope
and no success-class envelope. -/
theorem bad_uuid_fails_whole_ingest (eng : Engine) (st : AppState)
    (e0 : ZipEntry) (zs : List ZipEntry)
    (hlev : (((e0 :: zs).map ZipEntry.path).contains
      (save_id_of ((e0 :: zs).map ZipEntry.path) ++ "/Level.sav")) = true)
    (hbad : ∃ f ∈ player_files_of ((e0 :: zs).map ZipEntry.path)
        (save_id_of ((e0 :: zs).map ZipEntry.path)),
      exceptIsOk (uuid_key f) = false) :
    (load_zip_file_handler eng st (Except.ok (e0 :: zs))).state = st ∧
    (load_zip_file_handler eng st (Except.ok (e0 :: zs))).calls = [] ∧
    (load_zip_file_handler eng st (Except.ok (e0 :: zs))).sent.countP
      (fun env => env.type == MessageType.ERROR) = 1 ∧
    (load_zip_file_handler eng st (Except.ok (e0 :: zs))).sent.countP
      (fun env => env.type == MessageType.LOAD_ZIP_FILE ||
        env.type == MessageType.GET_PLAYERS) = 0 := by
  simp only [List.map_cons] at hlev hbad
  obtain ⟨e, he⟩ := build_player_data_fails (zip_read (e0 :: zs)) _ [] hbad
  have hzi : zip_ingest (e0 :: zs) = Except.error e := by
    simp only [zip_ingest, namelist, List.map_cons, List.isEmpty_cons, Bool.false_eq_true,
      if_false]
    rw [hlev]
    simp only [eq_self_iff_true, if_true, he, Except.map]
  refine ⟨?_, ?_, ?_, ?_⟩ <;>
    simp [load_zip_file_handler, hzi, List.countP_cons, errorEnvelope, build_response]

/-- Witness for C6: the two-entry bundle with a `bogus.sav` player file. -/
theorem bad_uuid_fails_whole_ingest_witness :
    ((([⟨"S1/Level.sav", [9]⟩, ⟨"S1/Players/bogus.sav", [1]⟩] :
        List ZipEntry).map ZipEntry.path).contains
      (save_id_of (([⟨"S1/Level.sav", [9]⟩, ⟨"S1/Players/bogus.sav", [1]⟩] :
        List ZipEntry).map ZipEntry.path) ++ "/Level.sav")) = true ∧
    exceptIsOk (uuid_key "S1/Players/bogus.sav") = false ∧
    (load_zip_file_handler engOk stLoaded
      (Except.ok [⟨"S1/Level.sav", [9]⟩, ⟨"S1/Players/bogus.sav", [1]⟩])).state = stLoaded ∧
    (load_zip_file_handler engOk stLoaded
      (Except.ok [⟨"S1/Level.sav", [9]⟩, ⟨"S1/Players/bogus.sav", [1]⟩])).calls = [] :=
  ⟨by decide, by decide,
    (bad_uuid_fails_whole_ingest engOk stLoaded ⟨"S1/Level.sav", [9]⟩
      [⟨"S1/Players/bogus.sav", [1]⟩] (by decide)
      ⟨"S1/Players/bogus.sav", by decide, by decide⟩).1,
    (bad_uuid_fails_whole_ingest engOk stLoaded ⟨"S1/Level.sav", [9]⟩
      [⟨"S1/Players/bogus.sav", [1]⟩] (by decide)
      ⟨"S1/Players/bogus.sav", by decide, by decide⟩).2.1⟩

theorem string_data_append (a b : String) : (a ++ b).data = a.data ++ b.data := rfl

theorem infix_append_right {α : Type} {l a : List α} (b : List α) (h : l <:+: a) :
    l <:+: a ++ b := by
  rcases h with ⟨s, t, rfl⟩
  exact ⟨s, t ++ b, by simp⟩

theorem infix_append_left {α : Type} {l b : List α} (a : List α) (h : l <:+: b) :
    l <:+: a ++ b := by
  rcases h with ⟨s, t, rfl⟩
  exact ⟨a ++ s, t, by simp⟩

/-- `has_sub` decides the substring relation. -/
theorem has_sub_iff (pat : List Char) : ∀ l : List Char,
    has_sub pat l = true ↔ pat <:+: l
  | [] => by simp [has_sub, List.isEmpty_iff]
  | c :: cs => by
      simp only [has_sub, Bool.or_eq_true, List.isPrefixOf_iff_prefix,
        has_sub_iff pat cs, List.infix_cons_iff]

theorem mem_infix_py_repr_items : ∀ (l : List String), ∀ f ∈ l,
    f.data <:+: (py_repr_items l).data
  | [], f, hf => absurd hf (List.not_mem_nil f)
  | [s], f, hf => by
      have hfs : f = s := by simpa using hf
      subst hfs
      show f.data <:+: (py_str_repr f).data
      rw [py_str_repr, string_data_append, string_data_append]
      exact infix_append_right _ (infix_append_left _ List.infix_rfl)
  | s :: t :: rest, f, hf => by
      rcases List.mem_cons.mp hf with rfl | hmem
      · show f.data <:+: ((py_str_repr f ++ ", ") ++ py_repr_items (t :: rest)).data
        rw [string_data_append]
        refine infix_append_right _ ?_
        rw [string_data_append]
        refine infix_append_right _ ?_
        rw [py_str_repr, string_data_append, string_data_append]
        exact infix_append_right _ (infix_append_left _ List.infix_rfl)
      · show f.data <:+: ((py_str_repr s ++ ", ") ++ py_repr_items (t :: rest)).data
        rw [string_data_append]
        exact infix_append_left _ (mem_infix_py_repr_items (t :: rest) f hmem)

theorem mem_infix_py_list_repr (l : List String) (f : String) (hf : f ∈ l) :
    f.data <:+: (py_list_repr l).data := by
  rw [py_list_repr, string_data_append, string_data_append]
  exact infix_append_right _ (infix_append_left _ (mem_infix_py_repr_items l f hf))

/-- Claim C7 counterexample: for the bundle ["S1/Players/bogus.sav"] the
missing-Level error message does not name the missing required entry by its
full path "S1/Level.sav"; it only mentions the bare name "Level.sav". -/
theorem missing_level_counterexample :
    zip_ingest [⟨"S1/Players/bogus.sav", []⟩] = Except.error
      "Zip file does not contain \x27Level.sav\x27, available files: [\x27S1/Players/bogus.sav\x27]" ∧
    has_sub "S1/Level.sav".data
      "Zip file does not contain \x27Level.sav\x27, available files: [\x27S1/Players/bogus.sav\x27]".data =
      false :=
  ⟨rfl, by decide⟩

/-- Claim C7 amended: a non-empty bundle whose listing lacks
`<root_id>/Level.sav` fails ingestion with an error message that names the
bare missing entry name `Level.sav` (not the full path) and enumerates every
entry actually found in the archive. -/
theorem missing_level_message_amended (e0 : ZipEntry) (zs : List ZipEntry)
    (hmiss : (((e0 :: zs).map ZipEntry.path).contains
      (save_id_of ((e0 :: zs).map ZipEntry.path) ++ "/Level.sav")) = false) :
    zip_ingest (e0 :: zs) = Except.error
      ("Zip file does not contain \x27Level.sav\x27, available files: " ++
        py_list_repr ((e0 :: zs).map ZipEntry.path)) ∧
    ("Level.sav".data <:+:
      ("Zip file does not contain \x27Level.sav\x27, available files: " ++
        py_list_repr ((e0 :: zs).map ZipEntry.path)).data) ∧
    (∀ f ∈ (e0 :: zs).map ZipEntry.path,
      f.data <:+:
        ("Zip file does not contain \x27Level.sav\x27, available files: " ++
          py_list_repr ((e0 :: zs).map ZipEntry.path)).data) := by
  simp only [List.map_cons] at hmiss ⊢
  refine ⟨?_, ?_, ?_⟩
  · simp only [zip_ingest, namelist, List.map_cons, List.isEmpty_cons, Bool.false_eq_true,
      if_false]
    rw [hmiss]
    simp
  · rw [string_data_append]
    refine infix_append_right _ ?_
    decide
  · intro f hf
    rw [string_data_append]
    exact infix_append_left _ (mem_infix_py_list_repr _ f hf)

/-- Witness for the amended C7 on the bundle ["S1/Players/bogus.sav"]. -/
theorem missing_level_message_amended_witness :
    ((([⟨"S1/Players/bogus.sav", []⟩] : List ZipEntry).map ZipEntry.path).contains
      (save_id_of (([⟨"S1/Players/bogus.sav", []⟩] : List ZipEntry).map ZipEntry.path) ++
        "/Level.sav")) = false ∧
    zip_ingest [⟨"S1/Players/bogus.sav", []⟩] = Except.error
      ("Zip file does not contain \x27Level.sav\x27, available files: " ++
        py_list_repr (([⟨"S1/Players/bogus.sav", []⟩] : List ZipEntry).map ZipEntry.path)) ∧
    ("Level.sav".data <:+:
      ("Zip file does not contain \x27Level.sav\x27, available files: " ++
        py_list_repr (([⟨"S1/Players/bogus.sav", []⟩] : List ZipEntry).map ZipEntry.path)).data) :=
  ⟨by decide,
    (missing_level_message_amended ⟨"S1/Players/bogus.sav", []⟩ [] (by decide)).1,
    (missing_level_message_amended ⟨"S1/Players/bogus.sav", []⟩ [] (by decide)).2.1⟩

theorem filter_middle {α : Type} (p : α → Bool) (j : α) (hj : p j = false)
    (l₁ l₂ : List α) : (l₁ ++ j :: l₂).filter p = (l₁ ++ l₂).filter p := by
  simp [List.filter_append, List.filter_cons, hj]

theorem contains_middle {α : Type} [BEq α] [LawfulBEq α] (j : α) (l₁ l₂ : List α)
    (a : α) (h : (l₁ ++ l₂).contains a = true) : (l₁ ++ j :: l₂).contains a = true := by
  simp only [List.elem_eq_mem, decide_eq_true_eq] at *
  rcases List.mem_append.mp h with h1 | h2
  · exact List.mem_append_left _ h1
  · exact List.mem_append_right _ (List.mem_cons_of_mem _ h2)

theorem contains_middle_false {α : Type} [BEq α] [LawfulBEq α] (j : α) (l₁ l₂ : List α)
    (a : α) (hj : (j == a) = false) (h : (l₁ ++ l₂).contains a = false) :
    (l₁ ++ j :: l₂).contains a = false := by
  have hne : j ≠ a := by simpa using hj
  simp only [List.elem_eq_mem, decide_eq_false_iff_not] at *
  intro hmem
  rcases List.mem_append.mp hmem with h1 | h2
  · exact h (List.mem_append_left _ h1)
  · rcases List.mem_cons.mp h2 with rfl | h3
    · exact hne rfl
    · exact h (List.mem_append_right _ h3)

theorem zip_read_middle (z₁ z₂ : List ZipEntry) (junk : ZipEntry) (name : String)
    (h : (junk.path == name) = false) :
    zip_read (z₁ ++ junk :: z₂) name = zip_read (z₁ ++ z₂) name := by
  simp only [zip_read]
  rw [filter_middle (fun e => e.path == name) junk h]

theorem player_files_middle (l₁ l₂ : List String) (p : String) (sid : String)
    (h : (py_startswith p (sid ++ "/Players/") && py_endswith p ".sav") = false) :
    player_files_of (l₁ ++ p :: l₂) sid = player_files_of (l₁ ++ l₂) sid := by
  simp only [player_files_of]
  rw [filter_middle (fun f => py_startswith f (sid ++ "/Players/") && py_endswith f ".sav") p h]

theorem build_player_data_congr (r1 r2 : String → List Nat) :
    ∀ (fs : List String) (acc : List (Nat × List Nat)),
      (∀ f ∈ fs, r1 f = r2 f) →
      build_player_data r1 fs acc = build_player_data r2 fs acc
  | [], _, _ => rfl
  | f :: fs, acc, h => by
      rw [build_player_data, build_player_data]
      rcases hk : uuid_key f with e | k
      · simp only [hk]
      · simp only [hk]
        rw [h f (by simp)]
        exact build_player_data_congr r1 r2 fs _ (fun g hg => h g (by simp [hg]))

theorem zip_ingest_ignores_junk (e0 : ZipEntry) (zs₁ zs₂ : List ZipEntry)
    (junk : ZipEntry)
    (hlev : ((e0.path :: ((zs₁ ++ zs₂).map ZipEntry.path)).contains
      (save_id_of (e0.path :: ((zs₁ ++ zs₂).map ZipEntry.path)) ++ "/Level.sav")) = true)
    (hj1 : (junk.path ==
      save_id_of (e0.path :: ((zs₁ ++ zs₂).map ZipEntry.path)) ++ "/Level.sav") = false)
    (hj2 : (py_startswith junk.path
        (save_id_of (e0.path :: ((zs₁ ++ zs₂).map ZipEntry.path)) ++ "/Players/") &&
      py_endswith junk.path ".sav") = false) :
    zip_ingest (e0 :: (zs₁ ++ junk :: zs₂)) = zip_ingest (e0 :: (zs₁ ++ zs₂)) := by
  simp only [List.map_append] at hlev hj1 hj2
  have hsid : save_id_of (e0.path :: (zs₁.map ZipEntry.path ++
      (junk.path :: zs₂.map ZipEntry.path))) =
      save_id_of (e0.path :: (zs₁.map ZipEntry.path ++ zs₂.map ZipEntry.path)) := rfl
  have hlev2 : ((e0.path :: (zs₁.map ZipEntry.path ++
      (junk.path :: zs₂.map ZipEntry.path))).contains
      (save_id_of (e0.path :: (zs₁.map ZipEntry.path ++ zs₂.map ZipEntry.path)) ++
        "/Level.sav")) = true := by
    have h2 := contains_middle junk.path (e0.path :: zs₁.map ZipEntry.path)
      (zs₂.map ZipEntry.path)
      (save_id_of (e0.path :: (zs₁.map ZipEntry.path ++ zs₂.map ZipEntry.path)) ++
        "/Level.sav")
      (by simpa [List.cons_append] using hlev)
    simpa [List.cons_append] using h2
  have hread : zip_read (e0 :: (zs₁ ++ junk :: zs₂))
      (save_id_of (e0.path :: (zs₁.map ZipEntry.path ++ zs₂.map ZipEntry.path)) ++
        "/Level.sav") =
      zip_read (e0 :: (zs₁ ++ zs₂))
      (save_id_of (e0.path :: (zs₁.map ZipEntry.path ++ zs₂.map ZipEntry.path)) ++
        "/Level.sav") := by
    have h2 := zip_read_middle (e0 :: zs₁) zs₂ junk
      (save_id_of (e0.path :: (zs₁.map ZipEntry.path ++ zs₂.map ZipEntry.path)) ++
        "/Level.sav") hj1
    simpa [List.cons_append] using h2
  have hpf : player_files_of (e0.path :: (zs₁.map ZipEntry.path ++
      (junk.path :: zs₂.map ZipEntry.path)))
      (save_id_of (e0.path :: (zs₁.map ZipEntry.path ++ zs₂.map ZipEntry.path))) =
      player_files_of (e0.path :: (zs₁.map ZipEntry.path ++ zs₂.map ZipEntry.path))
      (save_id_of (e0.path :: (zs₁.map ZipEntry.path ++ zs₂.map ZipEntry.path))) := by
    have h2 := player_files_middle (e0.path :: zs₁.map ZipEntry.path)
      (zs₂.map ZipEntry.path) junk.path
      (save_id_of (e0.path :: (zs₁.map ZipEntry.path ++ zs₂.map ZipEntry.path))) hj2
    simpa [List.cons_append] using h2
  have hbuild : build_player_data (zip_read (e0 :: (zs₁ ++ junk :: zs₂)))
      (player_files_of (e0.path :: (zs₁.map ZipEntry.path ++ zs₂.map ZipEntry.path))
        (save_id_of (e0.path :: (zs₁.map ZipEntry.path ++ zs₂.map ZipEntry.path)))) [] =
      build_player_data (zip_read (e0 :: (zs₁ ++ zs₂)))
      (player_files_of (e0.path :: (zs₁.map ZipEntry.path ++ zs₂.map ZipEntry.path))
        (save_id_of (e0.path :: (zs₁.map ZipEntry.path ++ zs₂.map ZipEntry.path)))) [] := by
    apply build_player_data_congr
    intro f hf
    have hpat := List.of_mem_filter hf
    have hne : (junk.path == f) = false := by
      rw [beq_eq_false_iff_ne]
      intro he
      rw [← he] at hpat
      rw [hpat] at hj2
      simp at hj2
    have h2 := zip_read_middle (e0 :: zs₁) zs₂ junk f hne
    simpa [List.cons_append] using h2
  simp only [zip_ingest, namelist, List.map_cons, List.map_append, List.isEmpty_cons,
    Bool.false_eq_true, if_false]
  rw [hsid, hlev2, hlev]
  simp only [eq_self_iff_true, if_true]
  rw [hpf, hread, hbuild]

/-- Claim C9 counterexample: a non-matching entry in the first listing
position is not ignored — it drives the root-id derivation and causes
rejection.  The archive ["S1/Level.sav"] is accepted; prepending the entry
"Other/readme.txt" — which, relative to the derived root id "Other", is
neither "Other/Level.sav" nor of the form "Other/Players/*.sav" — makes
ingestion reject the bundle. -/
theorem unrelated_entries_counterexample :
    save_id_of ["Other/readme.txt", "S1/Level.sav"] = "Other" ∧
    ("Other/readme.txt" ==
      save_id_of ["Other/readme.txt", "S1/Level.sav"] ++ "/Level.sav") = false ∧
    (py_startswith "Other/readme.txt"
        (save_id_of ["Other/readme.txt", "S1/Level.sav"] ++ "/Players/") &&
      py_endswith "Other/readme.txt" ".sav") = false ∧
    ingest_ok (zip_ingest [⟨"S1/Level.sav", [9]⟩]) = true ∧
    ingest_ok (zip_ingest [⟨"Other/readme.txt", [5]⟩, ⟨"S1/Level.sav", [9]⟩]) = false :=
  ⟨rfl, by decide, by decide, rfl, rfl⟩

/-- Claim C9 amended: an archive entry in any position after the first
listed entry that is neither `<root_id>/Level.sav` nor matches
`<root_id>/Players/*.sav` is silently ignored by bundle ingestion: it never
enters the player-file set (so it is neither validated nor put in the keyed
blobs), it never changes whether the bundle is accepted or rejected, and
when the required `<root_id>/Level.sav` is present the handler's whole
observable outcome (final state, envelopes, engine calls) is the same as if
the entry were not in the archive.  (A non-matching entry in the first
position instead determines the derived root id and can cause rejection.) -/
theorem unrelated_entries_ignored_amended (eng : Engine) (st : AppState)
    (e0 : ZipEntry) (zs₁ zs₂ : List ZipEntry) (junk : ZipEntry)
    (hj1 : (junk.path ==
      save_id_of (e0.path :: ((zs₁ ++ zs₂).map ZipEntry.path)) ++ "/Level.sav") = false)
    (hj2 : (py_startswith junk.path
        (save_id_of (e0.path :: ((zs₁ ++ zs₂).map ZipEntry.path)) ++ "/Players/") &&
      py_endswith junk.path ".sav") = false) :
    player_files_of (e0.path :: ((zs₁ ++ junk :: zs₂).map ZipEntry.path))
        (save_id_of (e0.path :: ((zs₁ ++ zs₂).map ZipEntry.path))) =
      player_files_of (e0.path :: ((zs₁ ++ zs₂).map ZipEntry.path))
        (save_id_of (e0.path :: ((zs₁ ++ zs₂).map ZipEntry.path))) ∧
    ingest_ok (zip_ingest (e0 :: (zs₁ ++ junk :: zs₂))) =
      ingest_ok (zip_ingest (e0 :: (zs₁ ++ zs₂))) ∧
    (((e0.path :: ((zs₁ ++ zs₂).map ZipEntry.path)).contains
        (save_id_of (e0.path :: ((zs₁ ++ zs₂).map ZipEntry.path)) ++ "/Level.sav")) = true →
      load_zip_file_handler eng st (Except.ok (e0 :: (zs₁ ++ junk :: zs₂))) =
        load_zip_file_handler eng st (Except.ok (e0 :: (zs₁ ++ zs₂)))) := by
  refine ⟨?_, ?_, ?_⟩
  · have h2 := player_files_middle (e0.path :: zs₁.map ZipEntry.path)
      (zs₂.map ZipEntry.path) junk.path
      (save_id_of (e0.path :: ((zs₁ ++ zs₂).map ZipEntry.path))) hj2
    simpa [List.cons_append, List.map_append, List.map_cons] using h2
  · cases hlev : (e0.path :: ((zs₁ ++ zs₂).map ZipEntry.path)).contains
        (save_id_of (e0.path :: ((zs₁ ++ zs₂).map ZipEntry.path)) ++ "/Level.sav") with
    | true =>
        rw [zip_ingest_ignores_junk e0 zs₁ zs₂ junk hlev hj1 hj2]
    | false =>
        have hsid : save_id_of (e0.path :: ((zs₁ ++ junk :: zs₂).map ZipEntry.path)) =
            save_id_of (e0.path :: ((zs₁ ++ zs₂).map ZipEntry.path)) := rfl
        have hwo : ((e0.path :: zs₁.map ZipEntry.path) ++ zs₂.map ZipEntry.path).contains
            (save_id_of (e0.path :: ((zs₁ ++ zs₂).map ZipEntry.path)) ++ "/Level.sav") =
            false := by
          simpa [List.cons_append, List.map_append] using hlev
        have hlev2 := contains_middle_false junk.path (e0.path :: zs₁.map ZipEntry.path)
          (zs₂.map ZipEntry.path)
          (save_id_of (e0.path :: ((zs₁ ++ zs₂).map ZipEntry.path)) ++ "/Level.sav") hj1 hwo
        have hlev2' : ((e0.path :: ((zs₁ ++ junk :: zs₂).map ZipEntry.path)).contains
            (save_id_of (e0.path :: ((zs₁ ++ zs₂).map ZipEntry.path)) ++ "/Level.sav")) =
            false := by
          simpa [List.cons_append, List.map_append, List.map_cons] using hlev2
        simp only [zip_ingest, namelist, List.map_cons, List.isEmpty_cons,
          Bool.false_eq_true, if_false]
        rw [hsid, hlev2', hlev]
        rfl
  · intro hlev
    have h := zip_ingest_ignores_junk e0 zs₁ zs₂ junk hlev hj1 hj2
    simp only [load_zip_file_handler]
    rw [h]

/-- Witness for the amended C9: a `Other/readme.txt` entry after the first
position changes neither the player-file set, nor acceptance, nor the
handler's outcome. -/
theorem unrelated_entries_ignored_amended_witness :
    player_files_of ((⟨"S1/Level.sav", [9]⟩ : ZipEntry).path ::
        ((([] : List ZipEntry) ++ (⟨"Other/readme.txt", [5]⟩ : ZipEntry) ::
          ([] : List ZipEntry)).map ZipEntry.path))
        (save_id_of ((⟨"S1/Level.sav", [9]⟩ : ZipEntry).path ::
          ((([] : List ZipEntry) ++ ([] : List ZipEntry)).map ZipEntry.path))) =
      player_files_of ((⟨"S1/Level.sav", [9]⟩ : ZipEntry).path ::
        ((([] : List ZipEntry) ++ ([] : List ZipEntry)).map ZipEntry.path))
        (save_id_of ((⟨"S1/Level.sav", [9]⟩ : ZipEntry).path ::
          ((([] : List ZipEntry) ++ ([] : List ZipEntry)).map ZipEntry.path))) ∧
    ingest_ok (zip_ingest ((⟨"S1/Level.sav", [9]⟩ : ZipEntry) ::
        (([] : List ZipEntry) ++ (⟨"Other/readme.txt", [5]⟩ : ZipEntry) ::
          ([] : List ZipEntry)))) =
      ingest_ok (zip_ingest ((⟨"S1/Level.sav", [9]⟩ : ZipEntry) ::
        (([] : List ZipEntry) ++ ([] : List ZipEntry)))) ∧
    load_zip_file_handler engOk st0
        (Except.ok (⟨"S1/Level.sav", [9]⟩ :: (([] : List ZipEntry) ++
          (⟨"Other/readme.txt", [5]⟩ : ZipEntry) :: ([] : List ZipEntry)))) =
      load_zip_file_handler engOk st0
        (Except.ok (⟨"S1/Level.sav", [9]⟩ :: (([] : List ZipEntry) ++
          ([] : List ZipEntry)))) :=
  ⟨(unrelated_entries_ignored_amended engOk st0 ⟨"S1/Level.sav", [9]⟩ [] []
      ⟨"Other/readme.txt", [5]⟩ (by decide) (by decide)).1,
    (unrelated_entries_ignored_amended engOk st0 ⟨"S1/Level.sav", [9]⟩ [] []
      ⟨"Other/readme.txt", [5]⟩ (by decide) (by decide)).2.1,
    (unrelated_entries_ignored_amended engOk st0 ⟨"S1/Level.sav", [9]⟩ [] []
      ⟨"Other/readme.txt", [5]⟩ (by decide) (by decide)).2.2 (by decide)⟩

theorem dict_get?_insert (m : List (Nat × List Nat)) (k k' : Nat) (v : List Nat) :
    dict_get? (dict_insert m k' v) k =
      if k' == k then some v else dict_get? m k := by
  induction m with
  | nil => rfl
  | cons p m ih =>
      by_cases hp : (p.1 == k') = true
      · have hpk : p.1 = k' := by simpa using hp
        cases hkk : k' == k <;>
          simp [dict_insert, dict_get?, hp, hpk, hkk]
      · have hp' : (p.1 == k') = false := by simpa using hp
        cases hq : p.1 == k <;> cases hkk : k' == k <;>
          simp_all [dict_insert, dict_get?, ih]
      
theorem dict_keys_insert_self (m : List (Nat × List Nat)) (k : Nat) (v : List Nat) :
    k ∈ dict_keys (dict_insert m k v) := by
  induction m with
  | nil => simp [dict_insert, dict_keys]
  | cons p m ih =>
      by_cases hp : (p.1 == k) = true
      · simp [dict_insert, dict_keys, hp]
      · have hp' : (p.1 == k) = false := by simpa using hp
        simp only [dict_insert, hp', Bool.false_eq_true, if_false, dict_keys, List.map_cons]
        exact List.mem_cons_of_mem _ ih

theorem dict_keys_insert_mono (m : List (Nat × List Nat)) (k k' : Nat) (v : List Nat)
    (h : k' ∈ dict_keys m) : k' ∈ dict_keys (dict_insert m k v) := by
  induction m with
  | nil => simp [dict_keys] at h
  | cons p m ih =>
      simp only [dict_keys, List.map_cons, List.mem_cons] at h
      by_cases hp : (p.1 == k) = true
      · have hpk : p.1 = k := by simpa using hp
        rcases h with rfl | h2
        · simp [dict_insert, dict_keys, hp, hpk]
        · simp only [dict_insert, hp, if_true, dict_keys, List.map_cons, List.mem_cons]
          exact Or.inr h2
      · have hp' : (p.1 == k) = false := by simpa using hp
        simp only [dict_insert, hp', Bool.false_eq_true, if_false, dict_keys, List.map_cons,
          List.mem_cons]
        rcases h with rfl | h2
        · exact Or.inl rfl
        · exact Or.inr (by simpa [dict_keys] using ih h2)

theorem dict_insert_length (m : List (Nat × List Nat)) (k : Nat) (v : List Nat) :
    (dict_insert m k v).length =
      if k ∈ dict_keys m then m.length else m.length + 1 := by
  induction m with
  | nil => simp [dict_insert, dict_keys]
  | cons p m ih =>
      by_cases hp : (p.1 == k) = true
      · have hpk : p.1 = k := by simpa using hp
        simp [dict_insert, dict_keys, hp, hpk]
      · have hp' : (p.1 == k) = false := by simpa using hp
        have hpk : p.1 ≠ k := by simpa using hp
        simp only [dict_insert, hp', Bool.false_eq_true, if_false, List.length_cons, ih,
          dict_keys, List.map_cons, List.mem_cons]
        by_cases hk : k ∈ List.map Prod.fst m
        · rw [if_pos hk, if_pos (Or.inr hk)]
        · have hnot : ¬(k = p.1 ∨ k ∈ List.map Prod.fst m) := by
            rintro (h | h)
            · exact hpk h.symm
            · exact hk h
          rw [if_neg hk, if_neg hnot]

theorem build_player_data_append_ok_inv (read : String → List Nat) :
    ∀ (xs ys : List String) (acc m : List (Nat × List Nat)),
      build_player_data read (xs ++ ys) acc = Except.ok m →
      ∃ a, build_player_data read xs acc = Except.ok a ∧
        build_player_data read ys a = Except.ok m
  | [], _, acc, m, h => ⟨acc, rfl, h⟩
  | f :: xs, ys, acc, m, h => by
      rw [List.cons_append, build_player_data] at h
      rw [build_player_data]
      rcases hk : uuid_key f with e | k
      · rw [hk] at h
        simp at h
      · rw [hk] at h
        exact build_player_data_append_ok_inv read xs ys _ m h

theorem build_player_data_length (read : String → List Nat) :
    ∀ (fs : List String) (acc : List (Nat × List Nat)) (m : List (Nat × List Nat)),
      build_player_data read fs acc = Except.ok m →
      m.length ≤ acc.length + fs.length
  | [], acc, m, h => by
      rw [build_player_data] at h
      injection h with h
      subst h
      simp
  | f :: fs, acc, m, h => by
      rw [build_player_data] at h
      rcases hk : uuid_key f with e | k
      · rw [hk] at h; cases h
      · rw [hk] at h
        have hrec := build_player_data_length read fs (dict_insert acc k (read f)) m h
        have hlen : (dict_insert acc k (read f)).length ≤ acc.length + 1 := by
          rw [dict_insert_length]
          split <;> omega
        simp only [List.length_cons]
        omega

theorem build_player_data_keys (read : String → List Nat) :
    ∀ (fs : List String) (acc : List (Nat × List Nat)) (m : List (Nat × List Nat)) (k : Nat),
      build_player_data read fs acc = Except.ok m →
      (k ∈ dict_keys acc ∨ ∃ f ∈ fs, uuid_key f = Except.ok k) →
      k ∈ dict_keys m
  | [], acc, m, k, h, hin => by
      rw [build_player_data] at h
      injection h with h
      subst h
      rcases hin with hacc | ⟨g, hg, _⟩
      · exact hacc
      · exact absurd hg (List.not_mem_nil g)
  | f :: fs, acc, m, k, h, hin => by
      rw [build_player_data] at h
      rcases hk : uuid_key f with e | k2
      · rw [hk] at h; cases h
      · rw [hk] at h
        refine build_player_data_keys read fs _ m k h ?_
        rcases hin with hacc | ⟨g, hg, hgk⟩
        · exact Or.inl (dict_keys_insert_mono _ _ _ _ hacc)
        · rcases List.mem_cons.mp hg with rfl | hg2
          · rw [hk] at hgk
            injection hgk with hgk
            subst hgk
            exact Or.inl (dict_keys_insert_self _ _ _)
          · exact Or.inr ⟨g, hg2, hgk⟩

theorem build_player_data_get (read : String → List Nat) :
    ∀ (fs : List String) (acc : List (Nat × List Nat)) (m : List (Nat × List Nat)) (k : Nat),
      build_player_data read fs acc = Except.ok m →
      dict_get? m k =
        (match find_last (keyed_as k) fs with
          | some g => some (read g)
          | none => dict_get? acc k)
  | [], acc, m, k, h => by
      rw [build_player_data] at h
      injection h with h
      subst h
      rfl
  | f :: fs, acc, m, k, h => by
      rw [build_player_data] at h
      rcases hk : uuid_key f with e | kf
      · rw [hk] at h; cases h
      · rw [hk] at h
        have ih := build_player_data_get read fs (dict_insert acc kf (read f)) m k h
        rw [ih, find_last]
        rcases hfl : find_last (keyed_as k) fs with _ | g
        · simp only [hfl]
          have hkeyed : keyed_as k f = (kf == k) := by simp [keyed_as, hk]
          rw [hkeyed, dict_get?_insert]
          cases hkk : kf == k <;> simp [hkk]
        · simp only [hfl]

theorem find_last_some (p : String → Bool) (f : String) (hf : p f = true) :
    ∀ fs : List String, f ∈ fs → ∃ g, find_last p fs = some g
  | [], h => absurd h (List.not_mem_nil f)
  | x :: fs, h => by
      rw [find_last]
      rcases hfl : find_last p fs with _ | g
      · rcases List.mem_cons.mp h with rfl | h2
        · exact ⟨f, by simp [hf]⟩
        · rcases find_last_some p f hf fs h2 with ⟨g, hg⟩
          rw [hg] at hfl
          cases hfl
      · exact ⟨g, by simp⟩

/-- Claim C10: keyed blobs are keyed by parsed UUID value, not by raw
filename.  When two player files parse to the same UUID, they collapse to
one key — the later-listed file's bytes overwrite the earlier — and the
mapping is strictly smaller than the list of matching player files. -/
theorem player_keys_collapse (read : String → List Nat) (fs₁ fs₂ : List String)
    (fj : String) (k : Nat) (m : List (Nat × List Nat))
    (hkj : uuid_key fj = Except.ok k)
    (hki : ∃ fi ∈ fs₁, uuid_key fi = Except.ok k)
    (hm : build_player_data read (fs₁ ++ fj :: fs₂) [] = Except.ok m) :
    m.length < (fs₁ ++ fj :: fs₂).length ∧
    ∃ g, find_last (keyed_as k) (fs₁ ++ fj :: fs₂) = some g ∧
      dict_get? m k = some (read g) := by
  obtain ⟨a₁, h1, h2⟩ := build_player_data_append_ok_inv read fs₁ (fj :: fs₂) [] m hm
  rw [build_player_data, hkj] at h2
  have hk1 : k ∈ dict_keys a₁ :=
    build_player_data_keys read fs₁ [] a₁ k h1 (Or.inr hki)
  have hlen1 : a₁.length ≤ fs₁.length := by
    have := build_player_data_length read fs₁ [] a₁ h1
    simpa using this
  have hlen2 : (dict_insert a₁ k (read fj)).length = a₁.length := by
    rw [dict_insert_length]
    simp [hk1]
  have hlen3 := build_player_data_length read fs₂ (dict_insert a₁ k (read fj)) m h2
  constructor
  · simp only [List.length_append, List.length_cons]
    omega
  · have hkeyed : keyed_as k fj = true := by simp [keyed_as, hkj]
    rcases find_last_some (keyed_as k) fj hkeyed (fs₁ ++ fj :: fs₂)
      (List.mem_append_right _ (List.mem_cons_self fj fs₂)) with ⟨g, hg⟩
    refine ⟨g, hg, ?_⟩
    rw [build_player_data_get read (fs₁ ++ fj :: fs₂) [] m k hm, hg]

/-- Witness for C10: the hyphenated and bare spellings of the zero UUID
collapse to one key holding the later file's bytes. -/
theorem player_keys_collapse_witness :
    uuid_key "S1/Players/00000000000000000000000000000000.sav" = Except.ok 0 ∧
    uuid_key "S1/Players/00000000-0000-0000-0000-000000000000.sav" = Except.ok 0 ∧
    build_player_data sample_read
      (["S1/Players/00000000-0000-0000-0000-000000000000.sav"] ++
        "S1/Players/00000000000000000000000000000000.sav" :: []) [] =
      Except.ok [(0, [2])] ∧
    ([(0, [2])] : List (Nat × List Nat)).length <
      (["S1/Players/00000000-0000-0000-0000-000000000000.sav"] ++
        "S1/Players/00000000000000000000000000000000.sav" :: []).length :=
  ⟨rfl, rfl, rfl,
    (player_keys_collapse sample_read
      ["S1/Players/00000000-0000-0000-0000-000000000000.sav"] []
      "S1/Players/00000000000000000000000000000000.sav" 0 [(0, [2])] rfl
      ⟨"S1/Players/00000000-0000-0000-0000-000000000000.sav", by simp, rfl⟩ rfl).1⟩
